import Mathlib

/-! Shallow embedding, over exact reals, of the polymer-chain generator and its
analysis functions from `simulations/polymer.py` (duplicated inside `app.py`).
The NumPy uniform draws are modelled as an explicit stream `draws : ℕ → ℝ × ℝ`
of `(theta, phi)` pairs, one pair per retry attempt, consumed left to right
through an explicit counter.  The chain under construction is kept
newest-bead-first (`rchain`); `generate_polymer` reverses it at the end, so
list index 0 is bead 0.  Real division by zero is `0` in Lean, so the single
unguarded division of the Good-solvent renormalisation (source lines 59-62)
yields the zero displacement where NumPy would produce `NaN`. -/

namespace Polymer

/-- A 3D position or displacement; the source keeps three parallel arrays
`x, y, z`. -/
@[ext]
structure Vec3 where
  x : ℝ
  y : ℝ
  z : ℝ

instance : Inhabited Vec3 := ⟨⟨0, 0, 0⟩⟩

/-- Squared Euclidean distance, as computed by
`(x[:i]-cand_x)**2 + (y[:i]-cand_y)**2 + (z[:i]-cand_z)**2` (line 91). -/
noncomputable def distSq (a c : Vec3) : ℝ :=
  (a.x - c.x) ^ 2 + (a.y - c.y) ^ 2 + (a.z - c.z) ^ 2

/-- Euclidean distance between two beads. -/
noncomputable def edist3 (a c : Vec3) : ℝ :=
  Real.sqrt (distSq a c)

/-- Euclidean norm of a displacement, as in
`np.sqrt(dx**2 + dy**2 + dz**2)` (lines 59, 76). -/
noncomputable def vnorm (v : Vec3) : ℝ :=
  Real.sqrt (v.x ^ 2 + v.y ^ 2 + v.z ^ 2)

/-- `np.min` of a nonempty list of reals (line 92); `0` on the empty list,
which `generate_polymer` never produces since bead 0 always exists. -/
noncomputable def minList : List ℝ → ℝ
  | [] => 0
  | [a] => a
  | a :: b :: rest => min a (minList (b :: rest))

/-- The raw sampled step of lines 40-45:
`dx = step_size * sin(phi) * cos(theta) * scaling`, etc. -/
noncomputable def base_step (step_size scaling θ φ : ℝ) : Vec3 :=
  ⟨step_size * Real.sin φ * Real.cos θ * scaling,
   step_size * Real.sin φ * Real.sin θ * scaling,
   step_size * Real.cos φ * scaling⟩

/-- The Good-solvent biased vector of lines 50-56 (`STIFFNESS = 1.0`):
the sampled step plus `1.0 * (bead[i-1] - bead[i-2])`.  `rchain` is the
already-committed chain, newest first, so `bead[i-1] = rchain.headI` and
`bead[i-2] = (rchain.drop 1).headI`. -/
noncomputable def good_combined (step_size scaling : ℝ) (rchain : List Vec3)
    (θ φ : ℝ) : Vec3 :=
  let d := base_step step_size scaling θ φ
  let p1 := rchain.headI
  let p2 := (rchain.drop 1).headI
  ⟨d.x + (p1.x - p2.x) * 1.0, d.y + (p1.y - p2.y) * 1.0,
   d.z + (p1.z - p2.z) * 1.0⟩

/-- The displacement of one attempt, after solvent physics (lines 40-81).
`rchain.length` is the loop index `i` (beads `0..i-1` are committed).
The Good branch (i > 1) renormalises to length `step_size` with an
unguarded division; the Bad branch (i > LOOKBACK = 100, `ATTRACTION = 0.2`)
pulls towards the mean of the last 100 beads and renormalises to
`step_size * scaling` only when the norm is positive. -/
noncomputable def displacement (step_size scaling : ℝ) (solvent : String)
    (rchain : List Vec3) (θ φ : ℝ) : Vec3 :=
  let d := base_step step_size scaling θ φ
  let i := rchain.length
  if solvent = "Good Solvent (Swollen)" ∧ 1 < i then
    let g := good_combined step_size scaling rchain θ φ
    let len := vnorm g
    ⟨g.x / len * step_size, g.y / len * step_size, g.z / len * step_size⟩
  else if solvent = "Bad Solvent (Collapsed)" ∧ 100 < i then
    let w := rchain.take 100
    let n : ℝ := w.length
    let cm : Vec3 :=
      ⟨(w.map Vec3.x).sum / n, (w.map Vec3.y).sum / n, (w.map Vec3.z).sum / n⟩
    let p1 := rchain.headI
    let a : Vec3 :=
      ⟨d.x + (cm.x - p1.x) * 0.2, d.y + (cm.y - p1.y) * 0.2,
       d.z + (cm.z - p1.z) * 0.2⟩
    let len := vnorm a
    if 0 < len then
      ⟨a.x / len * step_size * scaling, a.y / len * step_size * scaling,
       a.z / len * step_size * scaling⟩
    else a
  else d

/-- The candidate position of one attempt (lines 83-85):
`bead[i-1] + displacement`. -/
noncomputable def candidate (step_size scaling : ℝ) (solvent : String)
    (rchain : List Vec3) (θ φ : ℝ) : Vec3 :=
  let p1 := rchain.headI
  let d := displacement step_size scaling solvent rchain θ φ
  ⟨p1.x + d.x, p1.y + d.y, p1.z + d.z⟩

/-- The candidate produced by draw number `j` from the committed chain
`rchain`. -/
noncomputable def cand_at (step_size scaling : ℝ) (solvent : String)
    (rchain : List Vec3) (draws : ℕ → ℝ × ℝ) (j : ℕ) : Vec3 :=
  candidate step_size scaling solvent rchain (draws j).1 (draws j).2

/-- The SAW acceptance test of lines 91-92: minimum squared distance from the
candidate to every committed bead is at least `(step_size * 0.8)^2`. -/
abbrev saw_ok (step_size : ℝ) (rchain : List Vec3) (c : Vec3) : Prop :=
  (step_size * 0.8) ^ 2 ≤ minList (rchain.map fun p => distSq p c)

/-- The retry loop of lines 38-93, by fuel (`max_retries`).  Each attempt
draws `(theta, phi)` at the current counter `k`, forms the candidate, records
it as the fallback `best`, and under SAW stops as soon as `saw_ok` holds;
`best` starts at `bead[i-1]` (line 36) but is overwritten on every attempt.
Returns the committed bead and the advanced draw counter. -/
noncomputable def attempt_loop (step_size scaling : ℝ) (solvent : String)
    (use_saw : Bool) (draws : ℕ → ℝ × ℝ) (rchain : List Vec3) :
    ℕ → Vec3 → ℕ → Vec3 × ℕ
  | 0, best, k => (best, k)
  | fuel + 1, _, k =>
    if use_saw then
      if saw_ok step_size rchain (cand_at step_size scaling solvent rchain draws k) then
        (cand_at step_size scaling solvent rchain draws k, k + 1)
      else
        attempt_loop step_size scaling solvent use_saw draws rchain fuel
          (cand_at step_size scaling solvent rchain draws k) (k + 1)
    else
      attempt_loop step_size scaling solvent use_saw draws rchain fuel
        (cand_at step_size scaling solvent rchain draws k) (k + 1)

/-- One iteration of the outer loop body (lines 35-95): choose the retry
budget (`50` if SAW else `1`), run the retry loop, commit its result. -/
noncomputable def commit_bead (step_size scaling : ℝ) (solvent : String)
    (use_saw : Bool) (draws : ℕ → ℝ × ℝ) (rchain : List Vec3) (k : ℕ) :
    Vec3 × ℕ :=
  attempt_loop step_size scaling solvent use_saw draws rchain
    (if use_saw then 50 else 1) rchain.headI k

/-- The outer loop `for i in range(1, N)` (lines 33-95), with `n` beads still
to add; the committed bead is pushed on the front of `rchain`. -/
noncomputable def gen_loop (step_size scaling : ℝ) (solvent : String)
    (use_saw : Bool) (draws : ℕ → ℝ × ℝ) : ℕ → List Vec3 → ℕ → List Vec3
  | 0, rchain, _ => rchain
  | n + 1, rchain, k =>
    gen_loop step_size scaling solvent use_saw draws n
      ((commit_bead step_size scaling solvent use_saw draws rchain k).1 :: rchain)
      (commit_bead step_size scaling solvent use_saw draws rchain k).2

/-- Solvent scaling of lines 27-31: `1.0`, overwritten to `1.0` for the Good
label and `0.8` for the Bad label; every other label keeps the default. -/
noncomputable def solvent_scaling (solvent : String) : ℝ :=
  if solvent = "Good Solvent (Swollen)" then 1.0
  else if solvent = "Bad Solvent (Collapsed)" then 0.8
  else 1.0

/-- `generate_polymer(N, step_size, solvent_type, use_saw)` of lines 3-97.
For `N = 0` the source allocates empty arrays and the loop body never runs;
for `N ≥ 1` bead 0 is the origin (`np.zeros`) and beads `1..N-1` are grown in
order.  The source performs no validation of `N` or `step_size`. -/
noncomputable def generate_polymer (N : ℕ) (step_size : ℝ) (solvent : String)
    (use_saw : Bool) (draws : ℕ → ℝ × ℝ) : List Vec3 :=
  if N = 0 then []
  else
    (gen_loop step_size (solvent_scaling solvent) solvent use_saw draws
      (N - 1) [⟨0, 0, 0⟩] 0).reverse

/-- The metrics record returned by `analyze_chain` (lines 116-120). -/
structure ChainMetrics where
  center_of_mass : Vec3
  end_to_end : ℝ
  radius_of_gyration : ℝ

/-- `analyze_chain(x, y, z)` of lines 100-120: component-wise mean for the
centre of mass, `sqrt((x[-1]-x[0])^2 + ...)` for the end-to-end distance, and
the root of the mean squared distance to the centre of mass. -/
noncomputable def analyze_chain (chain : List Vec3) : ChainMetrics :=
  let n : ℝ := chain.length
  let cx := (chain.map Vec3.x).sum / n
  let cy := (chain.map Vec3.y).sum / n
  let cz := (chain.map Vec3.z).sum / n
  let first := chain.headI
  let last := chain.getLastD default
  let r_end := Real.sqrt ((last.x - first.x) ^ 2 + (last.y - first.y) ^ 2 +
    (last.z - first.z) ^ 2)
  let rg_sq := (chain.map fun p =>
    (p.x - cx) ^ 2 + (p.y - cy) ^ 2 + (p.z - cz) ^ 2).sum / n
  ⟨⟨cx, cy, cz⟩, r_end, Real.sqrt rg_sq⟩

/-- `calculate_scaling_exponent(r_end, N, b)` of lines 121-131:
`0.0` on the degenerate guard, else `log(r_end / b) / log(N)`. -/
noncomputable def calculate_scaling_exponent (r_end : ℝ) (N : ℤ) (b : ℝ) : ℝ :=
  if r_end ≤ 0 ∨ b ≤ 0 ∨ N ≤ 1 then 0
  else Real.log (r_end / b) / Real.log (N : ℝ)

lemma getLast?_cons_of_ne {α : Type} (a : α) {l : List α} (h : l ≠ []) :
    (a :: l).getLast? = l.getLast? := by
  cases l with
  | nil => exact absurd rfl h
  | cons b t => simp [List.getLast?_cons]

lemma gen_loop_length (b scal : ℝ) (s : String) (saw : Bool)
    (d : ℕ → ℝ × ℝ) :
    ∀ (n : ℕ) (rc : List Vec3) (k : ℕ),
      (gen_loop b scal s saw d n rc k).length = n + rc.length := by
  intro n
  induction n with
  | zero => intro rc k; simp [gen_loop]
  | succ m ih =>
    intro rc k
    simp only [gen_loop]
    rw [ih]
    simp
    omega

lemma gen_loop_getLast? (b scal : ℝ) (s : String) (saw : Bool)
    (d : ℕ → ℝ × ℝ) :
    ∀ (n : ℕ) (rc : List Vec3) (k : ℕ), rc ≠ [] →
      (gen_loop b scal s saw d n rc k).getLast? = rc.getLast? := by
  intro n
  induction n with
  | zero => intro rc k _; rfl
  | succ m ih =>
    intro rc k hrc
    simp only [gen_loop]
    rw [ih _ _ (by simp), getLast?_cons_of_ne _ hrc]

lemma generate_polymer_length (N : ℕ) (b : ℝ) (s : String) (saw : Bool)
    (d : ℕ → ℝ × ℝ) (hN : 1 ≤ N) :
    (generate_polymer N b s saw d).length = N := by
  unfold generate_polymer
  rw [if_neg (by omega)]
  rw [List.length_reverse, gen_loop_length]
  simp
  omega

lemma generate_polymer_head? (N : ℕ) (b : ℝ) (s : String) (saw : Bool)
    (d : ℕ → ℝ × ℝ) (hN : 1 ≤ N) :
    (generate_polymer N b s saw d).head? = some ⟨0, 0, 0⟩ := by
  unfold generate_polymer
  rw [if_neg (by omega)]
  rw [List.head?_reverse, gen_loop_getLast? _ _ _ _ _ _ _ _ (by simp)]
  rfl

/-- C1: for every `N ≥ 1`, `step_size`, solvent label and SAW flag,
`generate_polymer` returns a chain of exactly `N` 3D positions whose first
bead is the origin, and after every intermediate number `m ≤ N - 1` of
commits the chain still ends (oldest bead) at the origin: bead 0 is never
moved during the chain's lifetime. -/
theorem claim_C1 (N : ℕ) (hN : 1 ≤ N) (b : ℝ) (s : String) (saw : Bool)
    (d : ℕ → ℝ × ℝ) :
    (generate_polymer N b s saw d).length = N ∧
    (generate_polymer N b s saw d).head? = some ⟨0, 0, 0⟩ ∧
    ∀ m, m ≤ N - 1 →
      (gen_loop b (solvent_scaling s) s saw d m [⟨0, 0, 0⟩] 0).getLast? =
        some ⟨0, 0, 0⟩ := by
  refine ⟨generate_polymer_length N b s saw d hN,
    generate_polymer_head? N b s saw d hN, ?_⟩
  intro m _
  rw [gen_loop_getLast? _ _ _ _ _ _ _ _ (by simp)]
  rfl

/-- Witness for C1 at `N = 3`, `step_size = 1`, Theta label, SAW off. -/
theorem claim_C1_witness :
    (generate_polymer 3 1 "Theta Solvent (Ideal)" false (fun _ => (0, 0))).length = 3 ∧
    (generate_polymer 3 1 "Theta Solvent (Ideal)" false (fun _ => (0, 0))).head? =
      some ⟨0, 0, 0⟩ ∧
    ∀ m, m ≤ 3 - 1 →
      (gen_loop 1 (solvent_scaling "Theta Solvent (Ideal)") "Theta Solvent (Ideal)"
        false (fun _ => (0, 0)) m [⟨0, 0, 0⟩] 0).getLast? = some ⟨0, 0, 0⟩ :=
  claim_C1 3 (by norm_num) 1 "Theta Solvent (Ideal)" false (fun _ => (0, 0))

/-- C5 (code behaviour at the failing inputs): the source performs no entry
validation.  A call with `N = 0 < 1` returns an empty chain normally, and a
call with `step_size = -1 ≤ 0` returns a full `N`-bead chain normally; no
`InvalidArgument` failure exists anywhere in `generate_polymer`, whose
codomain is a plain list rather than a fallible result. -/
theorem claim_C5_code_behaviour :
    generate_polymer 0 1 "Theta Solvent (Ideal)" false (fun _ => (0, 0)) = [] ∧
    (generate_polymer 3 (-1) "Theta Solvent (Ideal)" false (fun _ => (0, 0))).length
      = 3 := by
  constructor
  · unfold generate_polymer
    simp
  · exact generate_polymer_length 3 (-1) _ false _ (by norm_num)

/-- C6: `calculate_scaling_exponent` returns `0` whenever `end_to_end ≤ 0`,
`step_size ≤ 0` or `N ≤ 1`, and otherwise returns
`ln(end_to_end / step_size) / ln N`; in particular the three concrete
degenerate calls of the spec all return `0`. -/
theorem claim_C6 (r b : ℝ) (N : ℤ) :
    (r ≤ 0 → calculate_scaling_exponent r N b = 0) ∧
    (b ≤ 0 → calculate_scaling_exponent r N b = 0) ∧
    (N ≤ 1 → calculate_scaling_exponent r N b = 0) ∧
    (0 < r → 0 < b → 1 < N →
      calculate_scaling_exponent r N b = Real.log (r / b) / Real.log (N : ℝ)) ∧
    calculate_scaling_exponent 0 10 1 = 0 ∧
    calculate_scaling_exponent 5 1 1 = 0 ∧
    calculate_scaling_exponent 5 100 0 = 0 := by
  refine ⟨?_, ?_, ?_, ?_, ?_, ?_, ?_⟩
  · intro h; unfold calculate_scaling_exponent; rw [if_pos (Or.inl h)]
  · intro h; unfold calculate_scaling_exponent; rw [if_pos (Or.inr (Or.inl h))]
  · intro h; unfold calculate_scaling_exponent; rw [if_pos (Or.inr (Or.inr h))]
  · intro h1 h2 h3
    unfold calculate_scaling_exponent
    rw [if_neg]
    push_neg
    exact ⟨h1, h2, h3⟩
  · unfold calculate_scaling_exponent; rw [if_pos (Or.inl le_rfl)]
  · unfold calculate_scaling_exponent; rw [if_pos (Or.inr (Or.inr le_rfl))]
  · unfold calculate_scaling_exponent; rw [if_pos (Or.inr (Or.inl le_rfl))]

/-- Witness for C6: a degenerate call with negative end-to-end distance, and
a non-degenerate call hitting the logarithmic formula. -/
theorem claim_C6_witness :
    calculate_scaling_exponent (-1) 5 1 = 0 ∧
    calculate_scaling_exponent 2 2 1 =
      Real.log (2 / 1) / Real.log ((2 : ℤ) : ℝ) :=
  ⟨(claim_C6 (-1) 1 5).1 (by norm_num),
   (claim_C6 2 1 2).2.2.2.1 (by norm_num) (by norm_num) (by norm_num)⟩

/-- C8: determinism — two runs of `generate_polymer` with identical
parameters and pointwise-identical draw streams produce identical chains. -/
theorem claim_C8 (N : ℕ) (b : ℝ) (s : String) (saw : Bool)
    (d1 d2 : ℕ → ℝ × ℝ) (h : ∀ n, d1 n = d2 n) :
    generate_polymer N b s saw d1 = generate_polymer N b s saw d2 := by
  have hd : d1 = d2 := funext h
  rw [hd]

/-- Witness for C8 at concrete parameters and streams. -/
theorem claim_C8_witness :
    generate_polymer 5 1 "Good Solvent (Swollen)" true (fun _ => (0, 0)) =
      generate_polymer 5 1 "Good Solvent (Swollen)" true (fun _ => (0, 0)) :=
  claim_C8 5 1 "Good Solvent (Swollen)" true (fun _ => (0, 0))
    (fun _ => (0, 0)) (fun _ => rfl)

/-- C10: the degenerate-input sentinel does not clamp: for `N ≥ 2`,
`step_size > 0` and `0 < end_to_end < step_size` the returned exponent is
strictly negative. -/
theorem claim_C10 (r b : ℝ) (N : ℤ) (hN : 2 ≤ N) (hb : 0 < b) (hr : 0 < r)
    (hrb : r < b) :
    calculate_scaling_exponent r N b < 0 := by
  unfold calculate_scaling_exponent
  rw [if_neg (by push_neg; exact ⟨hr, hb, by omega⟩)]
  apply div_neg_of_neg_of_pos
  · exact Real.log_neg (div_pos hr hb) ((div_lt_one hb).2 hrb)
  · apply Real.log_pos
    exact_mod_cast (by omega : (1 : ℤ) < N)

/-- Witness for C10 at `end_to_end = 1/2`, `N = 2`, `step_size = 1`. -/
theorem claim_C10_witness : calculate_scaling_exponent (1 / 2) 2 1 < 0 :=
  claim_C10 (1 / 2) 1 2 (by norm_num) (by norm_num) (by norm_num) (by norm_num)

lemma attempt_loop_zero (b scal : ℝ) (s : String) (saw : Bool)
    (draws : ℕ → ℝ × ℝ) (rchain : List Vec3) (best : Vec3) (k : ℕ) :
    attempt_loop b scal s saw draws rchain 0 best k = (best, k) := by
  simp only [attempt_loop]

lemma attempt_loop_succ (b scal : ℝ) (s : String) (saw : Bool)
    (draws : ℕ → ℝ × ℝ) (rchain : List Vec3) (n : ℕ) (best : Vec3) (k : ℕ) :
    attempt_loop b scal s saw draws rchain (n + 1) best k =
      if saw then
        if saw_ok b rchain (cand_at b scal s rchain draws k) then
          (cand_at b scal s rchain draws k, k + 1)
        else
          attempt_loop b scal s saw draws rchain n
            (cand_at b scal s rchain draws k) (k + 1)
      else
        attempt_loop b scal s saw draws rchain n
          (cand_at b scal s rchain draws k) (k + 1) := by
  simp only [attempt_loop]

lemma attempt_loop_no_saw (b scal : ℝ) (s : String) (draws : ℕ → ℝ × ℝ)
    (rchain : List Vec3) :
    ∀ (fuel : ℕ), 1 ≤ fuel → ∀ (k : ℕ) (best : Vec3),
      attempt_loop b scal s false draws rchain fuel best k =
        (cand_at b scal s rchain draws (k + fuel - 1), k + fuel) := by
  intro fuel
  induction fuel with
  | zero => intro h; omega
  | succ n ih =>
    intro _ k best
    simp only [attempt_loop]
    rw [if_neg (by simp)]
    cases n with
    | zero => simp [attempt_loop]
    | succ m =>
      rw [ih (by omega) (k + 1)]
      have h1 : k + 1 + (m + 1) - 1 = k + (m + 1 + 1) - 1 := by omega
      have h2 : k + 1 + (m + 1) = k + (m + 1 + 1) := by omega
      rw [h1, h2]

lemma attempt_loop_saw_char (b scal : ℝ) (s : String) (draws : ℕ → ℝ × ℝ)
    (rchain : List Vec3) :
    ∀ (fuel : ℕ), 1 ≤ fuel → ∀ (k : ℕ) (best : Vec3),
      (∃ j, k ≤ j ∧ j < k + fuel ∧
        saw_ok b rchain (cand_at b scal s rchain draws j) ∧
        (∀ m, k ≤ m → m < j → ¬ saw_ok b rchain (cand_at b scal s rchain draws m)) ∧
        attempt_loop b scal s true draws rchain fuel best k =
          (cand_at b scal s rchain draws j, j + 1)) ∨
      ((∀ m, k ≤ m → m < k + fuel → ¬ saw_ok b rchain (cand_at b scal s rchain draws m)) ∧
        attempt_loop b scal s true draws rchain fuel best k =
          (cand_at b scal s rchain draws (k + fuel - 1), k + fuel)) := by
  intro fuel
  induction fuel with
  | zero => intro h; omega
  | succ n ih =>
    intro _ k best
    rw [attempt_loop_succ, if_pos rfl]
    by_cases hk : saw_ok b rchain (cand_at b scal s rchain draws k)
    · left
      refine ⟨k, le_rfl, by omega, hk, fun m h1 h2 => absurd h1 (by omega), ?_⟩
      rw [if_pos hk]
    · rw [if_neg hk]
      cases n with
      | zero =>
        right
        refine ⟨fun m h1 h2 => ?_, ?_⟩
        · have hm : m = k := by omega
          rw [hm]
          exact hk
        · rw [attempt_loop_zero]
          norm_num
      | succ m =>
        rcases ih (by omega) (k + 1) (cand_at b scal s rchain draws k) with
          ⟨j, hj1, hj2, hj3, hj4, hj5⟩ | ⟨hall, heq⟩
        · left
          refine ⟨j, by omega, by omega, hj3, ?_, ?_⟩
          · intro mm h1 h2
            rcases Nat.eq_or_lt_of_le h1 with he | hl
            · rw [← he]
              exact hk
            · exact hj4 mm hl h2
          · exact hj5
        · right
          refine ⟨?_, ?_⟩
          · intro mm h1 h2
            rcases Nat.eq_or_lt_of_le h1 with he | hl
            · rw [← he]
              exact hk
            · exact hall mm hl (by omega)
          · rw [heq]
            have h1 : k + 1 + (m + 1) - 1 = k + (m + 1 + 1) - 1 := by omega
            have h2 : k + 1 + (m + 1) = k + (m + 1 + 1) := by omega
            rw [h1, h2]

/-- C2: per-bead commit rule.  With SAW on, the retry budget is 50: the
committed bead is the first candidate whose minimum squared distance to every
committed bead is at least `(step_size * 0.8)^2` — every earlier attempt
failed that test — and if all 50 attempts fail the test, the 50th (last
attempted) candidate is committed anyway, with no failure: the draw counter
advances by at most 50.  With SAW off, the budget is 1 and the first
candidate is committed immediately. -/
theorem claim_C2 (b scal : ℝ) (s : String) (saw : Bool) (draws : ℕ → ℝ × ℝ)
    (rchain : List Vec3) (k : ℕ) :
    (saw = true →
      (commit_bead b scal s saw draws rchain k).2 ≤ k + 50 ∧
      ((∃ j, k ≤ j ∧ j < k + 50 ∧
          saw_ok b rchain (cand_at b scal s rchain draws j) ∧
          (∀ m, k ≤ m → m < j → ¬ saw_ok b rchain (cand_at b scal s rchain draws m)) ∧
          commit_bead b scal s saw draws rchain k =
            (cand_at b scal s rchain draws j, j + 1)) ∨
        ((∀ m, k ≤ m → m < k + 50 → ¬ saw_ok b rchain (cand_at b scal s rchain draws m)) ∧
          commit_bead b scal s saw draws rchain k =
            (cand_at b scal s rchain draws (k + 49), k + 50)))) ∧
    (saw = false →
      commit_bead b scal s saw draws rchain k =
        (cand_at b scal s rchain draws k, k + 1)) := by
  constructor
  · intro h
    subst h
    unfold commit_bead
    rw [if_pos rfl]
    have hch := attempt_loop_saw_char b scal s draws rchain 50 (by omega) k rchain.headI
    have h49 : k + 50 - 1 = k + 49 := by omega
    rw [h49] at hch
    constructor
    · rcases hch with ⟨j, _, hj2, _, _, heq⟩ | ⟨_, heq⟩
      · rw [heq]
        omega
      · rw [heq]
    · exact hch
  · intro h
    subst h
    unfold commit_bead
    rw [if_neg (by simp)]
    rw [attempt_loop_no_saw b scal s draws rchain 1 le_rfl k]
    norm_num

/-- Witness for C2: both branches at `step_size = 1`, `rchain = [origin]`,
`k = 0`, constant draw stream. -/
theorem claim_C2_witness :
    (commit_bead 1 1 "Theta Solvent (Ideal)" true (fun _ => (0, 0))
      [⟨0, 0, 0⟩] 0).2 ≤ 0 + 50 ∧
    commit_bead 1 1 "Theta Solvent (Ideal)" false (fun _ => (0, 0))
      [⟨0, 0, 0⟩] 0 =
      (cand_at 1 1 "Theta Solvent (Ideal)" [⟨0, 0, 0⟩] (fun _ => (0, 0)) 0, 1) :=
  ⟨((claim_C2 1 1 "Theta Solvent (Ideal)" true (fun _ => (0, 0))
      [⟨0, 0, 0⟩] 0).1 rfl).1,
   (claim_C2 1 1 "Theta Solvent (Ideal)" false (fun _ => (0, 0))
      [⟨0, 0, 0⟩] 0).2 rfl⟩

lemma base_step_sq (b θ φ : ℝ) :
    (b * Real.sin φ * Real.cos θ * 1) ^ 2 + (b * Real.sin φ * Real.sin θ * 1) ^ 2 +
      (b * Real.cos φ * 1) ^ 2 = b ^ 2 := by
  linear_combination b ^ 2 * Real.sin φ ^ 2 * Real.sin_sq_add_cos_sq θ +
    b ^ 2 * Real.sin_sq_add_cos_sq φ

lemma vnorm_base_step_one (b : ℝ) (hb : 0 ≤ b) (θ φ : ℝ) :
    vnorm (base_step b 1 θ φ) = b := by
  simp only [vnorm, base_step]
  rw [base_step_sq]
  exact Real.sqrt_sq hb

lemma vnorm_renorm (g : Vec3) (b : ℝ) (hb : 0 ≤ b) (h : vnorm g ≠ 0) :
    vnorm ⟨g.x / vnorm g * b, g.y / vnorm g * b, g.z / vnorm g * b⟩ = b := by
  have hS0 : 0 ≤ g.x ^ 2 + g.y ^ 2 + g.z ^ 2 := by positivity
  have hsq : Real.sqrt (g.x ^ 2 + g.y ^ 2 + g.z ^ 2) ^ 2 =
      g.x ^ 2 + g.y ^ 2 + g.z ^ 2 := Real.sq_sqrt hS0
  have hSne : g.x ^ 2 + g.y ^ 2 + g.z ^ 2 ≠ 0 := by
    intro h0
    apply h
    unfold vnorm
    rw [h0, Real.sqrt_zero]
  simp only [vnorm]
  have key : (g.x / Real.sqrt (g.x ^ 2 + g.y ^ 2 + g.z ^ 2) * b) ^ 2 +
      (g.y / Real.sqrt (g.x ^ 2 + g.y ^ 2 + g.z ^ 2) * b) ^ 2 +
      (g.z / Real.sqrt (g.x ^ 2 + g.y ^ 2 + g.z ^ 2) * b) ^ 2 = b ^ 2 := by
    rw [div_mul_eq_mul_div, div_pow, div_mul_eq_mul_div, div_pow,
      div_mul_eq_mul_div, div_pow, hsq]
    rw [div_add_div_same, div_add_div_same]
    rw [show (g.x * b) ^ 2 + (g.y * b) ^ 2 + (g.z * b) ^ 2 =
      (g.x ^ 2 + g.y ^ 2 + g.z ^ 2) * b ^ 2 from by ring]
    exact mul_div_cancel_left₀ _ hSne
  rw [key]
  exact Real.sqrt_sq hb

lemma renorm_zero_vec (g : Vec3) (b : ℝ) (h : vnorm g = 0) :
    (⟨g.x / vnorm g * b, g.y / vnorm g * b, g.z / vnorm g * b⟩ : Vec3) =
      ⟨0, 0, 0⟩ := by
  rw [h]
  ext <;> simp

lemma displacement_default (b scal : ℝ) (s : String) (rchain : List Vec3)
    (θ φ : ℝ)
    (hg : ¬(s = "Good Solvent (Swollen)" ∧ 1 < rchain.length))
    (hbad : ¬(s = "Bad Solvent (Collapsed)" ∧ 100 < rchain.length)) :
    displacement b scal s rchain θ φ = base_step b scal θ φ := by
  simp only [displacement]
  rw [if_neg hg, if_neg hbad]

lemma displacement_good_renorm (b scal : ℝ) (rchain : List Vec3) (θ φ : ℝ)
    (h2 : 1 < rchain.length) :
    displacement b scal "Good Solvent (Swollen)" rchain θ φ =
      ⟨(good_combined b scal rchain θ φ).x /
          vnorm (good_combined b scal rchain θ φ) * b,
        (good_combined b scal rchain θ φ).y /
          vnorm (good_combined b scal rchain θ φ) * b,
        (good_combined b scal rchain θ φ).z /
          vnorm (good_combined b scal rchain θ φ) * b⟩ := by
  simp only [displacement]
  rw [if_pos ⟨by trivial, h2⟩]

lemma good_disp (b : ℝ) (hb : 0 ≤ b) (rchain : List Vec3) (θ φ : ℝ) :
    vnorm (displacement b 1 "Good Solvent (Swollen)" rchain θ φ) = b ∨
      displacement b 1 "Good Solvent (Swollen)" rchain θ φ = ⟨0, 0, 0⟩ := by
  by_cases h2 : 1 < rchain.length
  · rw [displacement_good_renorm b 1 rchain θ φ h2]
    by_cases hz : vnorm (good_combined b 1 rchain θ φ) = 0
    · right
      exact renorm_zero_vec _ _ hz
    · left
      exact vnorm_renorm _ _ hb hz
  · rw [displacement_default b 1 _ rchain θ φ (fun hc => h2 hc.2)
      (fun hc => absurd hc.1 (by decide))]
    left
    exact vnorm_base_step_one b hb θ φ

lemma theta_disp (b : ℝ) (hb : 0 ≤ b) (rchain : List Vec3) (θ φ : ℝ) :
    vnorm (displacement b 1 "Theta Solvent (Ideal)" rchain θ φ) = b := by
  rw [displacement_default b 1 _ rchain θ φ (fun hc => absurd hc.1 (by decide))
    (fun hc => absurd hc.1 (by decide))]
  exact vnorm_base_step_one b hb θ φ

lemma edist3_candidate (b scal : ℝ) (s : String) (rchain : List Vec3)
    (θ φ : ℝ) :
    edist3 rchain.headI (candidate b scal s rchain θ φ) =
      vnorm (displacement b scal s rchain θ φ) := by
  simp only [edist3, candidate, distSq, vnorm]
  congr 1
  ring

lemma candidate_zero_disp (b scal : ℝ) (s : String) (rchain : List Vec3)
    (θ φ : ℝ) (h : displacement b scal s rchain θ φ = ⟨0, 0, 0⟩) :
    candidate b scal s rchain θ φ = rchain.headI := by
  simp only [candidate, h]
  ext <;> simp

lemma attempt_loop_is_cand (b scal : ℝ) (s : String) (saw : Bool)
    (draws : ℕ → ℝ × ℝ) (rchain : List Vec3) :
    ∀ (fuel : ℕ), 1 ≤ fuel → ∀ (k : ℕ) (best : Vec3), ∃ j,
      (attempt_loop b scal s saw draws rchain fuel best k).1 =
        cand_at b scal s rchain draws j := by
  intro fuel
  induction fuel with
  | zero => intro h; omega
  | succ n ih =>
    intro _ k best
    rw [attempt_loop_succ]
    by_cases hsaw : saw = true
    · rw [if_pos hsaw]
      by_cases hok : saw_ok b rchain (cand_at b scal s rchain draws k)
      · rw [if_pos hok]
        exact ⟨k, rfl⟩
      · rw [if_neg hok]
        cases n with
        | zero => rw [attempt_loop_zero]; exact ⟨k, rfl⟩
        | succ m => exact ih (by omega) (k + 1) _
    · rw [if_neg hsaw]
      cases n with
      | zero => rw [attempt_loop_zero]; exact ⟨k, rfl⟩
      | succ m => exact ih (by omega) (k + 1) _

lemma commit_bead_is_cand (b scal : ℝ) (s : String) (saw : Bool)
    (draws : ℕ → ℝ × ℝ) (rchain : List Vec3) (k : ℕ) : ∃ j,
      (commit_bead b scal s saw draws rchain k).1 =
        cand_at b scal s rchain draws j := by
  unfold commit_bead
  exact attempt_loop_is_cand b scal s saw draws rchain _
    (by cases saw <;> norm_num) k _

lemma commit_bead_bond_theta (b : ℝ) (hb : 0 ≤ b) (saw : Bool)
    (draws : ℕ → ℝ × ℝ) (rchain : List Vec3) (k : ℕ) :
    edist3 rchain.headI
      (commit_bead b 1 "Theta Solvent (Ideal)" saw draws rchain k).1 = b := by
  obtain ⟨j, hj⟩ := commit_bead_is_cand b 1 _ saw draws rchain k
  rw [hj]
  unfold cand_at
  rw [edist3_candidate]
  exact theta_disp b hb rchain _ _

lemma commit_bead_bond_good (b : ℝ) (hb : 0 ≤ b) (saw : Bool)
    (draws : ℕ → ℝ × ℝ) (rchain : List Vec3) (k : ℕ) :
    edist3 rchain.headI
      (commit_bead b 1 "Good Solvent (Swollen)" saw draws rchain k).1 = b ∨
    (commit_bead b 1 "Good Solvent (Swollen)" saw draws rchain k).1 =
      rchain.headI := by
  obtain ⟨j, hj⟩ := commit_bead_is_cand b 1 _ saw draws rchain k
  rw [hj]
  unfold cand_at
  rcases good_disp b hb rchain (draws j).1 (draws j).2 with hn | hz
  · left
    rw [edist3_candidate]
    exact hn
  · right
    exact candidate_zero_disp _ _ _ _ _ _ hz

lemma gen_loop_chain' (b scal : ℝ) (s : String) (saw : Bool)
    (draws : ℕ → ℝ × ℝ) (R : Vec3 → Vec3 → Prop)
    (hR : ∀ (rchain : List Vec3) (k : ℕ), rchain ≠ [] →
      R (commit_bead b scal s saw draws rchain k).1 rchain.headI) :
    ∀ (n : ℕ) (rc : List Vec3) (k : ℕ), rc ≠ [] → List.Chain' R rc →
      List.Chain' R (gen_loop b scal s saw draws n rc k) := by
  intro n
  induction n with
  | zero => intro rc k _ hc; simpa [gen_loop] using hc
  | succ m ih =>
    intro rc k h hc
    simp only [gen_loop]
    apply ih _ _ (by simp)
    rw [List.chain'_cons']
    refine ⟨?_, hc⟩
    intro y hy
    have hh : rc.head? = some rc.headI := by
      cases rc with
      | nil => exact absurd rfl h
      | cons a t => rfl
    rw [hh] at hy
    have hy2 : rc.headI = y := by simpa using hy
    rw [← hy2]
    exact hR rc k h

lemma chain'_getD {α : Type} [Inhabited α] {R : α → α → Prop} (l : List α)
    (h : List.Chain' R l) :
    ∀ i, i + 1 < l.length → R (l.getD i default) (l.getD (i + 1) default) := by
  intro i hi
  rw [List.getD_eq_get l default (by omega), List.getD_eq_get l default hi]
  exact List.chain'_iff_get.mp h i (by omega)

lemma solvent_scaling_theta : solvent_scaling "Theta Solvent (Ideal)" = 1 := by
  unfold solvent_scaling
  rw [if_neg (by decide), if_neg (by decide)]
  norm_num

lemma solvent_scaling_good : solvent_scaling "Good Solvent (Swollen)" = 1 := by
  unfold solvent_scaling
  rw [if_pos rfl]
  norm_num

/-- C3: bond lengths.  In a Theta-solvent chain every pair of consecutive
beads is at distance exactly `step_size` (scaling is 1).  In a Good-solvent
chain every pair of consecutive beads is at distance exactly `step_size`, the
single exception being a committed attempt whose combined (sampled +
persistence) vector had zero norm, in which case — renormalisation being
undefined — the two beads coincide in this exact-real model (NumPy would
produce `NaN` there; see C4). -/
theorem claim_C3 (N : ℕ) (b : ℝ) (hb : 0 < b) (saw : Bool)
    (draws : ℕ → ℝ × ℝ) :
    (∀ i, i + 1 < (generate_polymer N b "Theta Solvent (Ideal)" saw draws).length →
      edist3 ((generate_polymer N b "Theta Solvent (Ideal)" saw draws).getD i default)
        ((generate_polymer N b "Theta Solvent (Ideal)" saw draws).getD (i + 1) default)
        = b) ∧
    (∀ i, i + 1 < (generate_polymer N b "Good Solvent (Swollen)" saw draws).length →
      edist3 ((generate_polymer N b "Good Solvent (Swollen)" saw draws).getD i default)
        ((generate_polymer N b "Good Solvent (Swollen)" saw draws).getD (i + 1) default)
        = b ∨
      (generate_polymer N b "Good Solvent (Swollen)" saw draws).getD (i + 1) default =
        (generate_polymer N b "Good Solvent (Swollen)" saw draws).getD i default) := by
  by_cases hN : N = 0
  · subst hN
    constructor <;> (intro i hi; unfold generate_polymer at hi; simp at hi)
  constructor
  · have hgen : generate_polymer N b "Theta Solvent (Ideal)" saw draws =
        (gen_loop b 1 "Theta Solvent (Ideal)" saw draws (N - 1) [⟨0, 0, 0⟩] 0).reverse := by
      unfold generate_polymer
      rw [if_neg hN, solvent_scaling_theta]
    have hchain : List.Chain' (fun a c => edist3 c a = b)
        (gen_loop b 1 "Theta Solvent (Ideal)" saw draws (N - 1) [⟨0, 0, 0⟩] 0) := by
      apply gen_loop_chain' b 1 _ saw draws _ ?_ (N - 1) _ 0 (by simp)
        (List.chain'_singleton _)
      intro rchain k _
      exact commit_bead_bond_theta b hb.le saw draws rchain k
    have hrev : List.Chain' (fun p q => edist3 p q = b)
        (generate_polymer N b "Theta Solvent (Ideal)" saw draws) := by
      rw [hgen]
      exact List.chain'_reverse.mpr hchain
    exact chain'_getD _ hrev
  · have hgen : generate_polymer N b "Good Solvent (Swollen)" saw draws =
        (gen_loop b 1 "Good Solvent (Swollen)" saw draws (N - 1) [⟨0, 0, 0⟩] 0).reverse := by
      unfold generate_polymer
      rw [if_neg hN, solvent_scaling_good]
    have hchain : List.Chain' (fun a c => edist3 c a = b ∨ a = c)
        (gen_loop b 1 "Good Solvent (Swollen)" saw draws (N - 1) [⟨0, 0, 0⟩] 0) := by
      apply gen_loop_chain' b 1 _ saw draws _ ?_ (N - 1) _ 0 (by simp)
        (List.chain'_singleton _)
      intro rchain k _
      exact commit_bead_bond_good b hb.le saw draws rchain k
    have hrev : List.Chain' (fun p q => edist3 p q = b ∨ q = p)
        (generate_polymer N b "Good Solvent (Swollen)" saw draws) := by
      rw [hgen]
      exact List.chain'_reverse.mpr hchain
    exact chain'_getD _ hrev

/-- Witness for C3: the first bond of a 2-bead Theta chain has length 1. -/
theorem claim_C3_witness :
    edist3 ((generate_polymer 2 1 "Theta Solvent (Ideal)" false
        (fun _ => (0, 0))).getD 0 default)
      ((generate_polymer 2 1 "Theta Solvent (Ideal)" false
        (fun _ => (0, 0))).getD 1 default) = 1 :=
  (claim_C3 2 1 one_pos false (fun _ => (0, 0))).1 0 (by
    rw [generate_polymer_length 2 1 _ false _ (by norm_num)]
    norm_num)

lemma solvent_scaling_other (s : String) (h1 : s ≠ "Good Solvent (Swollen)")
    (h2 : s ≠ "Bad Solvent (Collapsed)") : solvent_scaling s = 1 := by
  unfold solvent_scaling
  rw [if_neg h1, if_neg h2]
  norm_num

lemma candidate_other (b scal : ℝ) (s : String) (rchain : List Vec3) (θ φ : ℝ)
    (h1 : s ≠ "Good Solvent (Swollen)") (h2 : s ≠ "Bad Solvent (Collapsed)") :
    candidate b scal s rchain θ φ =
      candidate b scal "Theta Solvent (Ideal)" rchain θ φ := by
  unfold candidate
  rw [displacement_default b scal s rchain θ φ (fun hc => h1 hc.1)
      (fun hc => h2 hc.1),
    displacement_default b scal _ rchain θ φ (fun hc => absurd hc.1 (by decide))
      (fun hc => absurd hc.1 (by decide))]

lemma attempt_loop_other (b scal : ℝ) (s : String) (saw : Bool)
    (d : ℕ → ℝ × ℝ) (rc : List Vec3)
    (h1 : s ≠ "Good Solvent (Swollen)") (h2 : s ≠ "Bad Solvent (Collapsed)") :
    ∀ (fuel : ℕ) (best : Vec3) (k : ℕ),
      attempt_loop b scal s saw d rc fuel best k =
        attempt_loop b scal "Theta Solvent (Ideal)" saw d rc fuel best k := by
  intro fuel
  induction fuel with
  | zero => intro best k; rw [attempt_loop_zero, attempt_loop_zero]
  | succ n ih =>
    intro best k
    rw [attempt_loop_succ, attempt_loop_succ]
    have hc : cand_at b scal s rc d k =
        cand_at b scal "Theta Solvent (Ideal)" rc d k := by
      unfold cand_at
      exact candidate_other b scal s rc _ _ h1 h2
    rw [hc, ih]

lemma commit_bead_other (b scal : ℝ) (s : String) (saw : Bool)
    (d : ℕ → ℝ × ℝ) (rc : List Vec3) (k : ℕ)
    (h1 : s ≠ "Good Solvent (Swollen)") (h2 : s ≠ "Bad Solvent (Collapsed)") :
    commit_bead b scal s saw d rc k =
      commit_bead b scal "Theta Solvent (Ideal)" saw d rc k := by
  unfold commit_bead
  rw [attempt_loop_other b scal s saw d rc h1 h2]

lemma gen_loop_other (b scal : ℝ) (s : String) (saw : Bool) (d : ℕ → ℝ × ℝ)
    (h1 : s ≠ "Good Solvent (Swollen)") (h2 : s ≠ "Bad Solvent (Collapsed)") :
    ∀ (n : ℕ) (rc : List Vec3) (k : ℕ),
      gen_loop b scal s saw d n rc k =
        gen_loop b scal "Theta Solvent (Ideal)" saw d n rc k := by
  intro n
  induction n with
  | zero => intro rc k; simp [gen_loop]
  | succ m ih =>
    intro rc k
    simp only [gen_loop]
    rw [commit_bead_other b scal s saw d rc k h1 h2, ih]

/-- C9: for every solvent label other than `"Good Solvent (Swollen)"` and
`"Bad Solvent (Collapsed)"`, `generate_polymer` keeps scaling `1.0`, applies
no bias, raises no error, and — given the same draws — produces exactly the
chain of a run with the Theta label. -/
theorem claim_C9 (s : String) (h1 : s ≠ "Good Solvent (Swollen)")
    (h2 : s ≠ "Bad Solvent (Collapsed)") (N : ℕ) (b : ℝ) (saw : Bool)
    (d : ℕ → ℝ × ℝ) :
    generate_polymer N b s saw d =
      generate_polymer N b "Theta Solvent (Ideal)" saw d := by
  unfold generate_polymer
  by_cases hN : N = 0
  · rw [if_pos hN, if_pos hN]
  · rw [if_neg hN, if_neg hN, solvent_scaling_other s h1 h2,
      solvent_scaling_theta, gen_loop_other b 1 s saw d h1 h2]

/-- Witness for C9 at the unrecognized label `"Water"`. -/
theorem claim_C9_witness :
    generate_polymer 3 1 "Water" false (fun _ => (0, 0)) =
      generate_polymer 3 1 "Theta Solvent (Ideal)" false (fun _ => (0, 0)) :=
  claim_C9 "Water" (by decide) (by decide) 3 1 false (fun _ => (0, 0))

/-- The spec's centre of mass: component-wise arithmetic mean of all bead
coordinates, written as an indexed sum over bead positions `0..N-1`. -/
noncomputable def center_of_mass_spec (chain : List Vec3) : Vec3 :=
  ⟨(∑ i ∈ Finset.range chain.length, (chain.getD i default).x) / chain.length,
   (∑ i ∈ Finset.range chain.length, (chain.getD i default).y) / chain.length,
   (∑ i ∈ Finset.range chain.length, (chain.getD i default).z) / chain.length⟩

lemma map_sum_eq_range (f : Vec3 → ℝ) (l : List Vec3) :
    (l.map f).sum = ∑ i ∈ Finset.range l.length, f (l.getD i default) := by
  induction l with
  | nil => simp
  | cons a t ih =>
    simp only [List.map_cons, List.sum_cons, List.length_cons]
    rw [Finset.sum_range_succ']
    simp only [List.getD_cons_succ, List.getD_cons_zero]
    rw [← ih]
    ring

lemma headI_eq_getD (l : List Vec3) (h : l ≠ []) : l.getD 0 default = l.headI := by
  cases l with
  | nil => exact absurd rfl h
  | cons a t => rfl

lemma getLastD_eq_getD (l : List Vec3) :
    l.getLastD default = l.getD (l.length - 1) default := by
  rw [List.getLastD_eq_getLast?, List.getLast?_eq_getElem?,
    List.getD_eq_getElem?_getD]

/-- C7: on every chain with at least one bead, `analyze_chain` returns the
component-wise mean of the coordinates as centre of mass, the Euclidean
distance between bead `0` and bead `N-1` as end-to-end distance, and the root
mean squared distance to the centre of mass as radius of gyration; both
scalars are nonnegative, and every chain produced by `generate_polymer` with
`N ≥ 1` is nonempty, so `analyze_chain` is defined on it. -/
theorem claim_C7 (chain : List Vec3) (h : 0 < chain.length) (N : ℕ)
    (hN : 1 ≤ N) (b : ℝ) (s : String) (saw : Bool) (d : ℕ → ℝ × ℝ) :
    (analyze_chain chain).center_of_mass = center_of_mass_spec chain ∧
    (analyze_chain chain).end_to_end =
      edist3 (chain.getD 0 default) (chain.getD (chain.length - 1) default) ∧
    (analyze_chain chain).radius_of_gyration =
      Real.sqrt ((∑ i ∈ Finset.range chain.length,
        distSq (chain.getD i default) (center_of_mass_spec chain)) /
          chain.length) ∧
    0 ≤ (analyze_chain chain).end_to_end ∧
    0 ≤ (analyze_chain chain).radius_of_gyration ∧
    0 < (generate_polymer N b s saw d).length := by
  have hne : chain ≠ [] := by
    intro h0
    rw [h0] at h
    simp at h
  have hx := map_sum_eq_range Vec3.x chain
  have hy := map_sum_eq_range Vec3.y chain
  have hz := map_sum_eq_range Vec3.z chain
  have hcx : (center_of_mass_spec chain).x =
      (chain.map Vec3.x).sum / chain.length := by
    simp only [center_of_mass_spec]
    rw [← hx]
  have hcy : (center_of_mass_spec chain).y =
      (chain.map Vec3.y).sum / chain.length := by
    simp only [center_of_mass_spec]
    rw [← hy]
  have hcz : (center_of_mass_spec chain).z =
      (chain.map Vec3.z).sum / chain.length := by
    simp only [center_of_mass_spec]
    rw [← hz]
  refine ⟨?_, ?_, ?_, ?_, ?_, ?_⟩
  · simp only [analyze_chain]
    ext
    · dsimp only
      rw [hcx]
    · dsimp only
      rw [hcy]
    · dsimp only
      rw [hcz]
  · simp only [analyze_chain, edist3, distSq]
    rw [headI_eq_getD chain hne, ← getLastD_eq_getD chain]
    congr 1
    ring
  · simp only [analyze_chain]
    rw [show (∑ i ∈ Finset.range chain.length,
        distSq (chain.getD i default) (center_of_mass_spec chain)) =
        (chain.map fun p => distSq p (center_of_mass_spec chain)).sum from
      (map_sum_eq_range (fun p => distSq p (center_of_mass_spec chain))
        chain).symm]
    have hfun : (fun p : Vec3 =>
        (p.x - (chain.map Vec3.x).sum / chain.length) ^ 2 +
        (p.y - (chain.map Vec3.y).sum / chain.length) ^ 2 +
        (p.z - (chain.map Vec3.z).sum / chain.length) ^ 2) =
        fun p => distSq p (center_of_mass_spec chain) := by
      funext p
      simp only [distSq]
      rw [hcx, hcy, hcz]
    rw [hfun]
  · simp only [analyze_chain]
    exact Real.sqrt_nonneg _
  · simp only [analyze_chain]
    exact Real.sqrt_nonneg _
  · rw [generate_polymer_length N b s saw d hN]
    omega

/-- Witness for C7 on the concrete chain `[(0,0,0), (1,0,0)]` and a
generated 1-bead chain. -/
theorem claim_C7_witness :
    0 ≤ (analyze_chain [⟨0, 0, 0⟩, ⟨1, 0, 0⟩]).radius_of_gyration ∧
    0 < (generate_polymer 1 1 "Theta Solvent (Ideal)" false
      (fun _ => (0, 0))).length :=
  ⟨(claim_C7 [⟨0, 0, 0⟩, ⟨1, 0, 0⟩] (by norm_num) 1 le_rfl 1
      "Theta Solvent (Ideal)" false (fun _ => (0, 0))).2.2.2.2.1,
   (claim_C7 [⟨0, 0, 0⟩, ⟨1, 0, 0⟩] (by norm_num) 1 le_rfl 1
      "Theta Solvent (Ideal)" false (fun _ => (0, 0))).2.2.2.2.2⟩

lemma gen_loop_zero (b scal : ℝ) (s : String) (saw : Bool) (d : ℕ → ℝ × ℝ)
    (rc : List Vec3) (k : ℕ) : gen_loop b scal s saw d 0 rc k = rc := by
  simp only [gen_loop]

lemma gen_loop_succ (b scal : ℝ) (s : String) (saw : Bool) (d : ℕ → ℝ × ℝ)
    (n : ℕ) (rc : List Vec3) (k : ℕ) :
    gen_loop b scal s saw d (n + 1) rc k =
      gen_loop b scal s saw d n
        ((commit_bead b scal s saw d rc k).1 :: rc)
        (commit_bead b scal s saw d rc k).2 := by
  simp only [gen_loop]

/-- The draw stream of the C4 failing input: bead 1 is placed by
`(theta, phi) = (0, pi/2)` (step `(1,0,0)`), and every later attempt draws
`(theta, phi) = (pi, pi/2)` (step `(-1,0,0)`), which exactly cancels the
Good-solvent persistence bias of the bond `(1,0,0)`. -/
noncomputable def draws_c4 : ℕ → ℝ × ℝ :=
  fun k => if k = 0 then (0, Real.pi / 2) else (Real.pi, Real.pi / 2)

lemma c4_zero_norm :
    vnorm (good_combined 1 1 [⟨1, 0, 0⟩, ⟨0, 0, 0⟩] Real.pi (Real.pi / 2)) = 0 := by
  have hg : good_combined 1 1 [⟨1, 0, 0⟩, ⟨0, 0, 0⟩] Real.pi (Real.pi / 2) =
      ⟨0, 0, 0⟩ := by
    unfold good_combined base_step
    ext <;> norm_num [Real.sin_pi, Real.cos_pi, Real.sin_pi_div_two,
      Real.cos_pi_div_two]
  rw [hg]
  unfold vnorm
  norm_num

lemma c4_bead1 :
    cand_at 1 1 "Good Solvent (Swollen)" [⟨0, 0, 0⟩] draws_c4 0 = ⟨1, 0, 0⟩ := by
  have hd : draws_c4 0 = (0, Real.pi / 2) := by simp [draws_c4]
  unfold cand_at
  rw [hd]
  unfold candidate
  rw [displacement_default 1 1 _ _ _ _ (fun hc => by norm_num at hc)
    (fun hc => absurd hc.1 (by decide))]
  unfold base_step
  ext <;> norm_num [Real.sin_pi_div_two, Real.cos_pi_div_two]

lemma c4_bead2 :
    cand_at 1 1 "Good Solvent (Swollen)" [⟨1, 0, 0⟩, ⟨0, 0, 0⟩] draws_c4 1 =
      ⟨1, 0, 0⟩ := by
  have hd : draws_c4 1 = (Real.pi, Real.pi / 2) := by simp [draws_c4]
  unfold cand_at
  rw [hd]
  unfold candidate
  rw [displacement_good_renorm 1 1 _ _ _ (by norm_num)]
  rw [renorm_zero_vec _ 1 c4_zero_norm]
  ext <;> norm_num

/-- C4 (code behaviour at the failing input): the Good-solvent
renormalisation is NOT guarded.  With `N = 3`, `step_size = 1`, SAW off, and
draws `(0, pi/2)` then `(pi, pi/2)`, the combined (sampled + persistence)
vector at bead 2 has norm exactly 0, yet the attempt is not treated as
failed: its candidate is committed into the chain, which ends as
`[(0,0,0), (1,0,0), (1,0,0)]` in this exact-real model (division by zero is 0
in Lean; NumPy computes `0.0/0.0 = NaN` there, so the committed bead is NaN).
The claimed retry/guard does not exist in the source. -/
theorem claim_C4_code_behaviour :
    vnorm (good_combined 1 1 [⟨1, 0, 0⟩, ⟨0, 0, 0⟩] Real.pi (Real.pi / 2)) = 0 ∧
    generate_polymer 3 1 "Good Solvent (Swollen)" false draws_c4 =
      [⟨0, 0, 0⟩, ⟨1, 0, 0⟩, ⟨1, 0, 0⟩] := by
  refine ⟨c4_zero_norm, ?_⟩
  have hcb1 : commit_bead 1 1 "Good Solvent (Swollen)" false draws_c4
      [⟨0, 0, 0⟩] 0 = (⟨1, 0, 0⟩, 1) := by
    unfold commit_bead
    rw [if_neg (by simp)]
    rw [attempt_loop_no_saw 1 1 "Good Solvent (Swollen)" draws_c4
      [⟨0, 0, 0⟩] 1 le_rfl 0]
    rw [show (0 + 1 - 1 : ℕ) = 0 from rfl, c4_bead1]
  have hcb2 : commit_bead 1 1 "Good Solvent (Swollen)" false draws_c4
      [⟨1, 0, 0⟩, ⟨0, 0, 0⟩] 1 = (⟨1, 0, 0⟩, 2) := by
    unfold commit_bead
    rw [if_neg (by simp)]
    rw [attempt_loop_no_saw 1 1 "Good Solvent (Swollen)" draws_c4
      [⟨1, 0, 0⟩, ⟨0, 0, 0⟩] 1 le_rfl 1]
    rw [show (1 + 1 - 1 : ℕ) = 1 from rfl, c4_bead2]
  unfold generate_polymer
  rw [if_neg (by norm_num), solvent_scaling_good]
  rw [show (3 : ℕ) - 1 = 0 + 1 + 1 from rfl]
  rw [gen_loop_succ 1 1 "Good Solvent (Swollen)" false draws_c4 (0 + 1)
    [⟨0, 0, 0⟩] 0]
  rw [hcb1]
  rw [gen_loop_succ 1 1 "Good Solvent (Swollen)" false draws_c4 0
    [⟨1, 0, 0⟩, ⟨0, 0, 0⟩] 1]
  rw [hcb2]
  rw [gen_loop_zero]
  rfl

end Polymer
